import Mathlib

/-!
Verification development for the `otlp2records` OTLP-to-columnar transcoder.

The Rust sources are shallowly embedded: f64 values are modelled as a tagged
type separating the finite values (as rationals) from NaN and the infinities,
byte slices as lists of naturals, and fallible functions return `Except` or
`Option`.
-/

namespace Otlp2Records

/-! ## Floating point model

An f64 is either a finite value (every finite f64 is a rational) or one of
the non-finite values NaN, +inf, -inf.  Only finiteness classification and
value identity matter to the embedded code, never rounding. -/

inductive FloatVal where
  | finite (q : ℚ)
  | nan
  | posInf
  | negInf
deriving DecidableEq, Repr

/-- Embedding of `f64::is_finite`. -/
def FloatVal.isFinite : FloatVal → Bool
  | .finite _ => true
  | _ => false

/-! ## VRL value model (`vrl::value::Value`)

The VRL `Value` enum has variants Bytes, Integer, Float(NotNan<f64>),
Boolean, Timestamp, Regex, Object, Array, Null.  Objects are keyed maps;
they are embedded as association lists in key order. -/

inductive VValue where
  | vbytes (s : String)
  | vint (i : Int)
  | vfloat (f : FloatVal)
  | vbool (b : Bool)
  | vnull
  | varr (xs : List VValue)
  | vobj (kvs : List (String × VValue))
  | vtimestamp
  | vregex

/-! ## JSON value model (`serde_json::Value`)

`serde_json::Number` holds an integer or a finite double; both are embedded
as rationals. -/

inductive JValue where
  | jnull
  | jbool (b : Bool)
  | jnum (q : ℚ)
  | jstr (s : String)
  | jarr (xs : List JValue)
  | jobj (kvs : List (String × JValue))

/-! ## `src/convert.rs` -/

mutual

/-- Embedding of `vrl_value_to_json` from `src/convert.rs`: converts a VRL
value to a JSON value, returning `none` for values not representable in JSON
(`serde_json::Number::from_f64` rejects NaN and the infinities; the `_`
catch-all rejects Timestamp and Regex).  Null entries of objects are
filtered out before conversion. -/
def vrl_value_to_json : VValue → Option JValue
  | .vbytes s => some (.jstr s)
  | .vint i => some (.jnum (i : ℚ))
  | .vfloat f =>
      match f with
      | .finite q => some (.jnum q)
      | _ => none
  | .vbool b => some (.jbool b)
  | .vnull => some .jnull
  | .varr xs => some (.jarr (convArr xs))
  | .vobj kvs => some (.jobj (convObj kvs))
  | .vtimestamp => none
  | .vregex => none

/-- Embedding of `arr.iter().filter_map(vrl_value_to_json).collect()`. -/
def convArr : List VValue → List JValue
  | [] => []
  | x :: xs =>
      match vrl_value_to_json x with
      | some j => j :: convArr xs
      | none => convArr xs

/-- Embedding of `map.iter().filter(...).filter_map(...)` on object entries. -/
def convObj : List (String × VValue) → List (String × JValue)
  | [] => []
  | (k, v) :: rest =>
      match v with
      | .vnull => convObj rest
      | v =>
          match vrl_value_to_json v with
          | some j => (k, j) :: convObj rest
          | none => convObj rest

end

/-- Embedding of `vrl_value_to_json_lossy` from `src/convert.rs`. -/
def vrl_value_to_json_lossy (v : VValue) : JValue :=
  (vrl_value_to_json v).getD .jnull

/-! ## `src/decode/mod.rs`: input format and the Auto fallback

Byte slices `&[u8]` are embedded as `List Nat` (each entry < 256 at use
sites; only byte identity matters to this code). -/

/-- Embedding of `InputFormat` from `src/decode/mod.rs`. -/
inductive InputFormat where
  | Protobuf
  | Json
  | Auto
deriving DecidableEq, Repr

/-- Embedding of `DecodeError` from `src/decode/common.rs` (declared in the spec error
taxonomy as `DecodeError::{Proto(String), Json(String), Unsupported(String)}`);
each variant carries its display message. -/
inductive DecodeError where
  | Proto (msg : String)
  | Json (msg : String)
  | Unsupported (msg : String)
deriving DecidableEq, Repr

/-- Modelled from the spec: `looks_like_json` lives in `src/decode/common.rs`
which is absent from the sources; per §4.C it "returns true if the first
non-whitespace byte is `\x7b` or `[`".  ASCII whitespace bytes are tab (9),
line feed (10), vertical tab (11), form feed (12), carriage return (13) and
space (32). -/
def looks_like_json : List Nat → Bool
  | [] => false
  | b :: rest =>
      if b = 9 ∨ b = 10 ∨ b = 11 ∨ b = 12 ∨ b = 13 ∨ b = 32 then
        looks_like_json rest
      else
        b = 123 ∨ b = 91

/-- The Auto-mode decode shared verbatim by `decode_logs`, `decode_traces`
and `decode_metrics` in `src/decode/mod.rs`, abstracted over the two
per-signal sub-decoders (absent from the sources); a sub-decoder returns
either its result or its error display string.  If `looks_like_json` holds,
JSON is tried first with protobuf fallback, otherwise the reverse; a double
failure yields `DecodeError::Unsupported` built by the exact `format!`
strings of `src/decode/mod.rs`. -/
def decodeAuto {α : Type} (protoDec jsonDec : List Nat → Except String α)
    (bytes : List Nat) : Except DecodeError α :=
  if looks_like_json bytes then
    match jsonDec bytes with
    | .ok values => .ok values
    | .error json_err =>
        match protoDec bytes with
        | .ok values => .ok values
        | .error proto_err =>
            .error (.Unsupported
              ("json decode failed: " ++ json_err ++
                "; protobuf fallback failed: " ++ proto_err))
  else
    match protoDec bytes with
    | .ok values => .ok values
    | .error proto_err =>
        match jsonDec bytes with
        | .ok values => .ok values
        | .error json_err =>
            .error (.Unsupported
              ("protobuf decode failed: " ++ proto_err ++
                "; json fallback failed: " ++ json_err))

/-- Embedding of `decode_logs` from `src/decode/mod.rs`, abstracted over the per-signal
sub-decoders `logs::decode_protobuf` / `logs::decode_json` (their module is
absent from the sources).  In `Protobuf` and `Json` modes a sub-decoder
error is wrapped in the matching `DecodeError` variant. -/
def decode_logs {α : Type} (protoDec jsonDec : List Nat → Except String α)
    (bytes : List Nat) (format : InputFormat) : Except DecodeError α :=
  match format with
  | .Protobuf =>
      match protoDec bytes with
      | .ok values => .ok values
      | .error e => .error (.Proto e)
  | .Json =>
      match jsonDec bytes with
      | .ok values => .ok values
      | .error e => .error (.Json e)
  | .Auto => decodeAuto protoDec jsonDec bytes

/-! ## `InputFormat::from_content_type` from `src/decode/mod.rs` -/

/-- Embedding of `u8::to_ascii_lowercase` semantics on a character, as used by Rust's
`str::to_ascii_lowercase`: only `A`..`Z` are mapped. -/
def asciiLowerChar (c : Char) : Char :=
  if 65 ≤ c.toNat ∧ c.toNat ≤ 90 then Char.ofNat (c.toNat + 32) else c

/-- Embedding of `char::is_whitespace`, restricted to the code points that can occur here
(Unicode White_Space: tab through carriage return, space, NEL, NBSP and the
higher separators; the match arms of `from_content_type` are all ASCII so
only the classification of ASCII matters to the result). -/
def rustIsWhitespace (c : Char) : Bool :=
  (9 ≤ c.toNat ∧ c.toNat ≤ 13) ∨ c.toNat = 32 ∨ c.toNat = 133 ∨ c.toNat = 160

/-- Embedding of `str::trim` on the character list of a string. -/
def rustTrim (l : List Char) : List Char :=
  ((l.dropWhile rustIsWhitespace).reverse.dropWhile rustIsWhitespace).reverse

/-- Embedding of `v.trim().to_ascii_lowercase()` as applied in `from_content_type`. -/
def normalizeContentType (s : String) : String :=
  ⟨(rustTrim s.data).map asciiLowerChar⟩

/-- Embedding of `InputFormat::from_content_type` from `src/decode/mod.rs`: trims and
ASCII-lowercases the header value, then matches
`application/json | application/otlp+json` to `Json`,
`application/x-protobuf | application/protobuf | application/otlp` to
`Protobuf`, and everything else (including an absent header) to `Auto`. -/
def from_content_type (content_type : Option String) : InputFormat :=
  match content_type.map normalizeContentType with
  | some "application/json" => .Json
  | some "application/otlp+json" => .Json
  | some "application/x-protobuf" => .Protobuf
  | some "application/protobuf" => .Protobuf
  | some "application/otlp" => .Protobuf
  | _ => .Auto

/-! ## Metrics decode model

`src/decode/metrics.rs` is absent from the sources; the definitions below
are modelled from the spec (§3.4, §4.B, §4.D) as overridden by the doc
contract of `decode_metrics` that IS in the sources
(`src/decode/mod.rs:168-175`): Histogram, ExponentialHistogram and Summary
metric types are not supported — their data points are skipped and tracked
in `DecodeMetricsResult::skipped` — while gauge and sum points are emitted,
one row each, to their own batch (`_metric_type` is only `"gauge"` or
`"sum"`); number points whose f64 carrier is non-finite are dropped into
`skipped.non_finite`, points with an absent carrier into the missing-value
counter, and resource/scope are denormalized into every row. -/

/-- Modelled from the spec: `SkippedMetrics` (its source module is absent);
§3.4 tallies per-reason drops, scenarios S3/S4 name the `summary` and
`non_finite` counters, and the `decode_metrics` doc in `src/decode/mod.rs`
says the skipped Histogram and ExponentialHistogram types are tracked here
as well. -/
structure SkippedMetrics where
  summary : Nat
  histogram : Nat
  exp_histogram : Nat
  non_finite : Nat
  missing_value : Nat
deriving DecidableEq, Repr

/-- Modelled from the spec: an OTLP metrics exemplar carried through to the
row's `exemplars:list<struct>` column. -/
structure Exemplar where
  time_unix_nano : Int
  value : Option FloatVal
deriving DecidableEq, Repr

/-- Modelled from the spec: an OTLP `NumberDataPoint`; `value` is the
`as_double`/`as_int` oneof coerced to f64, `none` when the oneof is unset. -/
structure NumberPoint where
  time_unix_nano : Int
  start_time_unix_nano : Int
  attributes : List (String × String)
  flags : Int
  exemplars : List Exemplar
  value : Option FloatVal
deriving DecidableEq, Repr

/-- Modelled from the spec: an OTLP `HistogramDataPoint` (`sum`/`min`/`max`
are optional per §9(c)). -/
structure HistogramPoint where
  time_unix_nano : Int
  start_time_unix_nano : Int
  attributes : List (String × String)
  flags : Int
  count : Int
  hsum : Option FloatVal
  hmin : Option FloatVal
  hmax : Option FloatVal
  bucket_counts : List Int
  explicit_bounds : List FloatVal
deriving DecidableEq, Repr

/-- Modelled from the spec: one side of an exponential histogram,
`struct\x7boffset:i32, bucket_counts:list<i64>\x7d`. -/
structure ExpBuckets where
  offset : Int
  bucket_counts : List Int
deriving DecidableEq, Repr

/-- Modelled from the spec: an OTLP `ExponentialHistogramDataPoint`. -/
structure ExpHistogramPoint where
  time_unix_nano : Int
  start_time_unix_nano : Int
  attributes : List (String × String)
  flags : Int
  count : Int
  hsum : Option FloatVal
  hmin : Option FloatVal
  hmax : Option FloatVal
  scale : Int
  zero_count : Int
  positive : ExpBuckets
  negative : ExpBuckets
deriving DecidableEq, Repr

/-- Modelled from the spec: an OTLP `SummaryDataPoint`; only its presence
matters (Summary is out of scope and counted in `skipped.summary`). -/
structure SummaryPoint where
  time_unix_nano : Int
  start_time_unix_nano : Int
  attributes : List (String × String)
  count : Int
deriving DecidableEq, Repr

/-- Modelled from the spec: the `data` oneof of an OTLP `Metric`. -/
inductive MetricData where
  | gauge (points : List NumberPoint)
  | sum (aggregation_temporality : Int) (is_monotonic : Bool)
      (points : List NumberPoint)
  | histogram (points : List HistogramPoint)
  | exp_histogram (points : List ExpHistogramPoint)
  | summary (points : List SummaryPoint)
deriving DecidableEq, Repr

/-- Modelled from the spec: an OTLP `Metric`. -/
structure Metric where
  name : String
  description : String
  unit : String
  data : MetricData
deriving DecidableEq, Repr

/-- Modelled from the spec: the instrumentation scope descriptor
denormalized into each row. -/
structure ScopeInfo where
  name : String
  version : String
  attributes : List (String × String)
deriving DecidableEq, Repr

/-- Modelled from the spec: the resource descriptor denormalized into each
row. -/
structure ResourceInfo where
  attributes : List (String × String)
deriving DecidableEq, Repr

/-- Modelled from the spec: `ScopeMetrics` of an `ExportMetricsServiceRequest`. -/
structure ScopeMetrics where
  scope : ScopeInfo
  metrics : List Metric
deriving DecidableEq, Repr

/-- Modelled from the spec: `ResourceMetrics` of an `ExportMetricsServiceRequest`. -/
structure ResourceMetrics where
  resource : ResourceInfo
  scopes : List ScopeMetrics
deriving DecidableEq, Repr

/-- Modelled from the spec: a gauge/sum metric row (§3.2); sum rows carry
`aggregation_temporality` and `is_monotonic`, gauge rows leave them absent. -/
structure MetricRow where
  resource : ResourceInfo
  scope : ScopeInfo
  metric_name : String
  metric_description : String
  metric_unit : String
  time_unix_nano : Int
  start_time_unix_nano : Int
  value : FloatVal
  attributes : List (String × String)
  flags : Int
  exemplars : List Exemplar
  aggregation_temporality : Option Int
  is_monotonic : Option Bool
deriving DecidableEq, Repr

/-- Modelled from the spec: a histogram metric row (§3.2); the row type of
the result's `histogram` batch field, which the current decoder never
populates (Histogram is an unsupported, skipped kind). -/
structure HistRow where
  resource : ResourceInfo
  scope : ScopeInfo
  metric_name : String
  metric_description : String
  metric_unit : String
  time_unix_nano : Int
  start_time_unix_nano : Int
  attributes : List (String × String)
  flags : Int
  count : Int
  hsum : Option FloatVal
  hmin : Option FloatVal
  hmax : Option FloatVal
  bucket_counts : List Int
  explicit_bounds : List FloatVal
deriving DecidableEq, Repr

/-- Modelled from the spec: an exponential-histogram metric row (§3.2); the
row type of the result's `exp_histogram` batch field, which the current
decoder never populates (ExponentialHistogram is an unsupported, skipped
kind). -/
structure ExpHistRow where
  resource : ResourceInfo
  scope : ScopeInfo
  metric_name : String
  metric_description : String
  metric_unit : String
  time_unix_nano : Int
  start_time_unix_nano : Int
  attributes : List (String × String)
  flags : Int
  count : Int
  hsum : Option FloatVal
  hmin : Option FloatVal
  hmax : Option FloatVal
  scale : Int
  zero_count : Int
  positive : ExpBuckets
  negative : ExpBuckets
deriving DecidableEq, Repr

/-- Modelled from the spec: `DecodeMetricsResult` (§3.4): the per-kind
batches are present only when at least one row was emitted (scenarios S3/S4:
`histogram is None`, `gauge is None`), plus the skip counters.  The
`histogram` and `exp_histogram` fields exist (`examples/pb_to_parquet.rs`
reads them) but stay `None`: per the `decode_metrics` doc contract those
metric types are skipped, never emitted. -/
structure DecodeMetricsResult where
  gauge : Option (List MetricRow)
  sum : Option (List MetricRow)
  histogram : Option (List HistRow)
  exp_histogram : Option (List ExpHistRow)
  skipped : SkippedMetrics
deriving DecidableEq, Repr

/-- The row built from one accepted number point (`v` is the point's finite
carrier). -/
def numberRow (res : ResourceInfo) (sc : ScopeInfo) (m : Metric)
    (agg : Option Int) (mono : Option Bool) (p : NumberPoint) (v : FloatVal) :
    MetricRow :=
  { resource := res, scope := sc, metric_name := m.name,
    metric_description := m.description, metric_unit := m.unit,
    time_unix_nano := p.time_unix_nano,
    start_time_unix_nano := p.start_time_unix_nano, value := v,
    attributes := p.attributes, flags := p.flags, exemplars := p.exemplars,
    aggregation_temporality := agg, is_monotonic := mono }

/-- Processes the number points of one gauge or sum metric in order:
returns the emitted rows together with the number of points dropped for a
non-finite carrier and for a missing carrier. -/
def processNumberPoints (res : ResourceInfo) (sc : ScopeInfo) (m : Metric)
    (agg : Option Int) (mono : Option Bool) :
    List NumberPoint → List MetricRow × Nat × Nat
  | [] => ([], 0, 0)
  | p :: ps =>
      let rest := processNumberPoints res sc m agg mono ps
      match p.value with
      | none => (rest.1, rest.2.1, rest.2.2 + 1)
      | some v =>
          if v.isFinite then
            (numberRow res sc m agg mono p v :: rest.1, rest.2.1, rest.2.2)
          else
            (rest.1, rest.2.1 + 1, rest.2.2)

/-- The running state of the metrics decoder: the rows emitted so far to
the two supported batches, and the skip counters. -/
structure MetricsAcc where
  gaugeRows : List MetricRow
  sumRows : List MetricRow
  skipped : SkippedMetrics
deriving DecidableEq, Repr

/-- The empty decoder state. -/
def MetricsAcc.init : MetricsAcc :=
  ⟨[], [], ⟨0, 0, 0, 0, 0⟩⟩

/-- One denormalized (resource, scope, metric) triple of the payload. -/
abbrev MetricTriple := ResourceInfo × ScopeInfo × Metric

/-- The resource → scope → metric nested iteration of the decoder,
flattened into the triples it visits, in visit order. -/
def metricTriples (payload : List ResourceMetrics) : List MetricTriple :=
  payload.flatMap fun rm =>
    rm.scopes.flatMap fun sm =>
      sm.metrics.map fun m => (rm.resource, sm.scope, m)

/-- Dispatch of one metric on its `data` oneof: gauge and sum points extend
their own batch, while histogram, exponential-histogram and summary points
are skipped and counted, each kind in its own counter (the `decode_metrics`
doc contract: Histogram, ExponentialHistogram and Summary are not
supported). -/
def stepMetric (acc : MetricsAcc) (t : MetricTriple) : MetricsAcc :=
  match t with
  | (res, sc, m) =>
    match m.data with
    | .gauge ps =>
        match processNumberPoints res sc m none none ps with
        | (rows, nf, miss) =>
          { acc with
            gaugeRows := acc.gaugeRows ++ rows,
            skipped := { acc.skipped with
              non_finite := acc.skipped.non_finite + nf,
              missing_value := acc.skipped.missing_value + miss } }
    | .sum agg mono ps =>
        match processNumberPoints res sc m (some agg) (some mono) ps with
        | (rows, nf, miss) =>
          { acc with
            sumRows := acc.sumRows ++ rows,
            skipped := { acc.skipped with
              non_finite := acc.skipped.non_finite + nf,
              missing_value := acc.skipped.missing_value + miss } }
    | .histogram ps =>
        { acc with
          skipped := { acc.skipped with
            histogram := acc.skipped.histogram + ps.length } }
    | .exp_histogram ps =>
        { acc with
          skipped := { acc.skipped with
            exp_histogram := acc.skipped.exp_histogram + ps.length } }
    | .summary ps =>
        { acc with
          skipped := { acc.skipped with
            summary := acc.skipped.summary + ps.length } }

/-- A row list becomes a present batch only when it is non-empty. -/
def batchOf {α : Type} : List α → Option (List α)
  | [] => none
  | rows => some rows

/-- Modelled from the spec: `decode_metrics` after a successful parse
(§4.B "Metric dispatch", §4.D "Metrics", overridden by the in-source doc
contract of `src/decode/mod.rs:168-175`) — walks every resource × scope ×
metric triple in order, dispatches each data point on the metric-type
oneof, emits gauge and sum rows, skips the unsupported kinds into their
counters, and returns the batches and the skip counters; the histogram and
exponential-histogram batches are always absent. -/
def decode_metrics_model (payload : List ResourceMetrics) :
    DecodeMetricsResult :=
  let acc := (metricTriples payload).foldl stepMetric MetricsAcc.init
  { gauge := batchOf acc.gaugeRows, sum := batchOf acc.sumRows,
    histogram := none, exp_histogram := none,
    skipped := acc.skipped }

/-! ## Arrow data model

A `RecordBatch` is a schema together with column-aligned arrays; a column
position holding `none` is a null position of the validity bitmap. -/

/-- Arrow column types occurring in the declared schemas. -/
inductive ArrowType where
  | utf8
  | int64
  | float64
  | boolean
  | listOf (elem : ArrowType)
  | structOf (fields : List (String × ArrowType))
  | mapOf

/-- An Arrow schema field: name, type, nullability. -/
structure Field where
  name : String
  typ : ArrowType
  nullable : Bool

/-- A single cell of an Arrow column. -/
inductive CellValue where
  | cstr (s : String)
  | cint (i : Int)
  | cfloat (f : FloatVal)
  | cbool (b : Bool)
  | clist (xs : List CellValue)
  | cstructv (kvs : List (String × CellValue))
  | cmap (kvs : List (String × String))

/-- An Arrow column: one optional cell per row, `none` marking a null
position. -/
abbrev Column := List (Option CellValue)

/-- An Arrow `RecordBatch`. -/
structure RecordBatch where
  fields : List Field
  columns : List Column

/-- The row count of a batch (the length of its columns; 0 when the batch
has no columns). -/
def RecordBatch.numRows (b : RecordBatch) : Nat :=
  ((b.columns.head?).map List.length).getD 0

/-- The `RecordBatch` invariants of §3.3: one column per schema field, all
columns of equal length. -/
def RecordBatch.wellFormed (b : RecordBatch) : Prop :=
  b.columns.length = b.fields.length ∧
    ∀ c ∈ b.columns, c.length = b.numRows

/-- Embedding of `RecordBatch::new_empty`: a zero-row batch over a schema. -/
def RecordBatch.new_empty (schema : List Field) : RecordBatch :=
  ⟨schema, schema.map fun _ => []⟩

/-! ## Metric schemas

`src/arrow/schema.rs` is absent from the sources; the schemas are modelled
from the spec (§3.2). -/

/-- Modelled from the spec: the `resource` struct column type. -/
def resourceType : ArrowType :=
  .structOf [("attributes", .mapOf)]

/-- Modelled from the spec: the `scope` struct column type. -/
def scopeType : ArrowType :=
  .structOf [("name", .utf8), ("version", .utf8), ("attributes", .mapOf)]

/-- Modelled from the spec: the `exemplars:list<struct>` column type. -/
def exemplarType : ArrowType :=
  .listOf (.structOf [("time_unix_nano", .int64), ("value", .float64)])

/-- Modelled from the spec: `gauge_schema` (`src/arrow/schema.rs` is absent);
the gauge row fields of §3.2, `value:f64` non-nullable per the finite-value
invariant. -/
def gauge_schema : List Field :=
  [⟨"time_unix_nano", .int64, false⟩,
   ⟨"start_time_unix_nano", .int64, false⟩,
   ⟨"metric_name", .utf8, false⟩,
   ⟨"metric_description", .utf8, true⟩,
   ⟨"metric_unit", .utf8, true⟩,
   ⟨"value", .float64, false⟩,
   ⟨"attributes", .mapOf, true⟩,
   ⟨"flags", .int64, true⟩,
   ⟨"exemplars", exemplarType, true⟩,
   ⟨"resource", resourceType, true⟩,
   ⟨"scope", scopeType, true⟩]

/-- Modelled from the spec: `sum_schema` — the gauge fields plus
`aggregation_temporality` and `is_monotonic` (§3.2). -/
def sum_schema : List Field :=
  gauge_schema ++
    [⟨"aggregation_temporality", .int64, false⟩,
     ⟨"is_monotonic", .boolean, false⟩]

/-! ## NDJSON output (`src/output/json.rs`)

`to_json` delegates to arrow-json's `LineDelimitedWriter` with the default
writer options; the writer is modelled at row granularity: each row becomes
one JSON object holding, in schema order, the fields whose cell is valid —
under the default options (`explicit_nulls` off) a null cell contributes no
key at all.  String escaping and decimal rendering of numbers inside the
serialized text are abstracted (no claim depends on them). -/

mutual

/-- The JSON value written for one Arrow cell. -/
def jsonCell : CellValue → JValue
  | .cstr s => .jstr s
  | .cint i => .jnum (i : ℚ)
  | .cfloat f =>
      match f with
      | .finite q => .jnum q
      | _ => .jnull
  | .cbool b => .jbool b
  | .clist xs => .jarr (jsonCellList xs)
  | .cstructv kvs => .jobj (jsonCellPairs kvs)
  | .cmap kvs => .jobj (kvs.map fun kv => (kv.1, .jstr kv.2))

/-- Pointwise conversion of list-cell elements. -/
def jsonCellList : List CellValue → List JValue
  | [] => []
  | x :: xs => jsonCell x :: jsonCellList xs

/-- Pointwise conversion of struct-cell children. -/
def jsonCellPairs : List (String × CellValue) → List (String × JValue)
  | [] => []
  | (k, v) :: rest => (k, jsonCell v) :: jsonCellPairs rest

end

mutual

/-- Serialized text of a JSON value (escaping and decimal formatting
abstracted). -/
def serializeJValue : JValue → String
  | .jnull => "null"
  | .jbool b => if b then "true" else "false"
  | .jnum q => toString q.num ++ (if q.den = 1 then "" else "/" ++ toString q.den)
  | .jstr s => "\"" ++ s ++ "\""
  | .jarr xs => "[" ++ serializeJList xs ++ "]"
  | .jobj kvs => "\x7b" ++ serializeJPairs kvs ++ "\x7d"

/-- Comma-joined serialization of array elements. -/
def serializeJList : List JValue → String
  | [] => ""
  | [x] => serializeJValue x
  | x :: xs => serializeJValue x ++ "," ++ serializeJList xs

/-- Comma-joined serialization of object entries. -/
def serializeJPairs : List (String × JValue) → String
  | [] => ""
  | [(k, v)] => "\"" ++ k ++ "\":" ++ serializeJValue v
  | (k, v) :: rest =>
      "\"" ++ k ++ "\":" ++ serializeJValue v ++ "," ++ serializeJPairs rest

end

/-- The JSON object written for row `i`: for each schema field whose column
holds a valid cell at `i`, one key in schema order; null cells are skipped
(arrow-json default). -/
def rowObj : List Field → List Column → Nat → List (String × JValue)
  | f :: fs, c :: cs, i =>
      match c.getD i none with
      | some cell => (f.name, jsonCell cell) :: rowObj fs cs i
      | none => rowObj fs cs i
  | _, _, _ => []

/-- The row objects of a batch, in row order. -/
def toJsonRows (b : RecordBatch) : List (List (String × JValue)) :=
  (List.range b.numRows).map (rowObj b.fields b.columns)

/-- Sequential write of the row lines into the output buffer. -/
def concatLines : List String → String
  | [] => ""
  | s :: rest => s ++ concatLines rest

/-- The serialized text of one row object. -/
def serializeRowText (r : List (String × JValue)) : String :=
  "\x7b" ++ serializeJPairs r ++ "\x7d"

/-- Embedding of `to_json` from `src/output/json.rs`: newline-delimited
JSON, one object per row, each row terminated by a line feed. -/
def to_json (b : RecordBatch) : String :=
  concatLines ((toJsonRows b).map fun r => serializeRowText r ++ "\n")

/-! ## Arrow IPC output (`src/output/ipc.rs`)

The arrow `StreamWriter` is modelled at message granularity: `try_new`
writes the schema message, `write` one record-batch message, `finish` the
end-of-stream marker (the flatbuffers byte encoding of each message is a
memory-layout concern below this embedding). -/

/-- One message of an Arrow IPC stream. -/
inductive IpcMessage where
  | schemaMsg (fields : List Field)
  | batchMsg (columns : List Column)
  | eos

/-- Embedding of `to_ipc` from `src/output/ipc.rs`: schema message, one
record-batch message, end-of-stream. -/
def to_ipc (b : RecordBatch) : List IpcMessage :=
  [.schemaMsg b.fields, .batchMsg b.columns, .eos]

/-- The batch messages of a stream after the schema message, up to the
end-of-stream marker (the arrow `StreamReader` loop). -/
def readIpcBatches (fields : List Field) :
    List IpcMessage → Option (List RecordBatch)
  | [.eos] => some []
  | .batchMsg cols :: rest =>
      (readIpcBatches fields rest).map (⟨fields, cols⟩ :: ·)
  | _ => none

/-- The arrow `StreamReader`: a schema message followed by batch messages
and the end-of-stream marker. -/
def readIpcStream : List IpcMessage → Option (List RecordBatch)
  | .schemaMsg fields :: rest => readIpcBatches fields rest
  | _ => none

/-! ## Parquet output (`src/output/parquet.rs`)

`to_parquet` builds an `ArrowWriter` with `Compression::UNCOMPRESSED`,
writes the batch once and closes the writer.  The parquet `ArrowWriter` is
modelled at file-structure granularity: it flushes a row group whenever the
buffered row count reaches the default `max_row_group_size` (1024 * 1024
rows) and on close — so an empty batch flushes no row group at all (the
in-repo test `test_to_parquet_empty_batch` records this: "Empty batch may
not produce any row groups").  The thrift encoding of the footer metadata
and the column chunk encodings between the two magics are abstracted. -/

/-- Compression codecs of `parquet::basic::Compression` used here. -/
inductive Compression where
  | uncompressed
  | snappy
deriving DecidableEq, Repr

/-- The `WriterProperties` default `max_row_group_size`. -/
def DEFAULT_MAX_ROW_GROUP_SIZE : Nat := 1048576

/-- The in-memory parquet file structure. -/
structure ParquetFile where
  compression : Compression
  schema : List Field
  row_groups : List (List Column)

/-- The row groups flushed for `rows` buffered rows: none when empty, one
per `DEFAULT_MAX_ROW_GROUP_SIZE` slice otherwise. -/
def chunkRowGroups (rows : Nat) (cols : List Column) : List (List Column) :=
  if rows = 0 then []
  else if rows ≤ DEFAULT_MAX_ROW_GROUP_SIZE then [cols]
  else
    cols.map (List.take DEFAULT_MAX_ROW_GROUP_SIZE) ::
      chunkRowGroups (rows - DEFAULT_MAX_ROW_GROUP_SIZE)
        (cols.map (List.drop DEFAULT_MAX_ROW_GROUP_SIZE))
termination_by rows
decreasing_by
  simp [DEFAULT_MAX_ROW_GROUP_SIZE] at *
  omega

/-- Embedding of `to_parquet` from `src/output/parquet.rs` at file-structure
granularity: uncompressed, schema derived from the batch's Arrow schema,
row groups as flushed by the `ArrowWriter`. -/
def to_parquet (b : RecordBatch) : ParquetFile :=
  ⟨.uncompressed, b.fields, chunkRowGroups b.numRows b.columns⟩

/-- The four parquet magic bytes `PAR1`. -/
def parquetMagic : List Nat := [80, 65, 82, 49]

/-- The bytes of one cell inside a column chunk (encoding abstracted via the
serialized JSON text of the cell). -/
def cellBytes (cell : Option CellValue) : List Nat :=
  match cell with
  | none => [0]
  | some c => 1 :: (serializeJValue (jsonCell c)).data.map Char.toNat

/-- The body of the parquet file between the magics: the column chunks of
every row group followed by the footer metadata (schema field names),
encodings abstracted. -/
def parquetBody (f : ParquetFile) : List Nat :=
  (f.row_groups.flatMap fun g => g.flatMap fun col => col.flatMap cellBytes)
    ++ f.schema.flatMap fun fld => fld.name.data.map Char.toNat

/-- The serialized parquet file: magic, body, footer, magic. -/
def parquetBytes (f : ParquetFile) : List Nat :=
  parquetMagic ++ parquetBody f ++ parquetMagic

/-! ## The public metrics facade and the WASM bindings

`transform_metrics` (its `lib.rs` is absent from the sources) is modelled
from the spec §4.G: it builds one `RecordBatch` per present metric kind
from the decode result.  `src/wasm.rs` is in the sources and its
`transform_metrics_gauge_impl` / `transform_metrics_sum_impl` are embedded
over the structured payload (the byte-level parse is the absent decoder). -/

/-- The cell of an `exemplars` column entry. -/
def exemplarsCell (es : List Exemplar) : CellValue :=
  .clist (es.map fun e =>
    .cstructv [("time_unix_nano", .cint e.time_unix_nano),
      ("value", match e.value with
        | some v => .cfloat v
        | none => .cfloat .nan)])

/-- The cell of a `resource` column entry. -/
def resourceCell (r : ResourceInfo) : CellValue :=
  .cstructv [("attributes", .cmap r.attributes)]

/-- The cell of a `scope` column entry. -/
def scopeCell (sc : ScopeInfo) : CellValue :=
  .cstructv [("name", .cstr sc.name), ("version", .cstr sc.version),
    ("attributes", .cmap sc.attributes)]

/-- Modelled from the spec: the gauge batch columns built by
`values_to_arrow` (its `src/arrow/builder.rs` is absent) from gauge rows,
one column per `gauge_schema` field in schema order. -/
def gaugeColumns (rows : List MetricRow) : List Column :=
  [rows.map fun r => some (.cint r.time_unix_nano),
   rows.map fun r => some (.cint r.start_time_unix_nano),
   rows.map fun r => some (.cstr r.metric_name),
   rows.map fun r => some (.cstr r.metric_description),
   rows.map fun r => some (.cstr r.metric_unit),
   rows.map fun r => some (.cfloat r.value),
   rows.map fun r => some (.cmap r.attributes),
   rows.map fun r => some (.cint r.flags),
   rows.map fun r => some (exemplarsCell r.exemplars),
   rows.map fun r => some (resourceCell r.resource),
   rows.map fun r => some (scopeCell r.scope)]

/-- Modelled from the spec: the sum batch columns — the gauge columns plus
`aggregation_temporality` and `is_monotonic`. -/
def sumColumns (rows : List MetricRow) : List Column :=
  gaugeColumns rows ++
    [rows.map fun r => some (.cint (r.aggregation_temporality.getD 0)),
     rows.map fun r => some (.cbool (r.is_monotonic.getD false))]

/-- The result of `transform_metrics` (§4.G). -/
structure TransformMetricsResult where
  gauge : Option RecordBatch
  sum : Option RecordBatch
  histogram : Option RecordBatch
  exp_histogram : Option RecordBatch
  skipped : SkippedMetrics

/-- Modelled from the spec: `transform_metrics` over an already parsed
payload (§4.G): decode, then build one batch per present kind.  The
histogram and exponential-histogram batches reuse their row lists as
single-struct columns; their dedicated schemas are not needed by any
claim. -/
def transform_metrics (payload : List ResourceMetrics) :
    TransformMetricsResult :=
  let d := decode_metrics_model payload
  { gauge := d.gauge.map fun rows => ⟨gauge_schema, gaugeColumns rows⟩,
    sum := d.sum.map fun rows => ⟨sum_schema, sumColumns rows⟩,
    histogram := d.histogram.map fun rows =>
      ⟨[⟨"histogram", .structOf [], false⟩],
       [rows.map fun r => some (.cstr r.metric_name)]⟩,
    exp_histogram := d.exp_histogram.map fun rows =>
      ⟨[⟨"exp_histogram", .structOf [], false⟩],
       [rows.map fun r => some (.cstr r.metric_name)]⟩,
    skipped := d.skipped }

/-- Embedding of `transform_metrics_gauge_impl` from `src/wasm.rs`: the
gauge batch when present, otherwise the IPC stream of
`RecordBatch::new_empty(gauge_schema())`. -/
def transform_metrics_gauge_impl (payload : List ResourceMetrics) :
    List IpcMessage :=
  match (transform_metrics payload).gauge with
  | some batch => to_ipc batch
  | none => to_ipc (RecordBatch.new_empty gauge_schema)

/-- Embedding of `transform_metrics_sum_impl` from `src/wasm.rs`: the sum
batch when present, otherwise the IPC stream of
`RecordBatch::new_empty(sum_schema())`. -/
def transform_metrics_sum_impl (payload : List ResourceMetrics) :
    List IpcMessage :=
  match (transform_metrics payload).sum with
  | some batch => to_ipc batch
  | none => to_ipc (RecordBatch.new_empty sum_schema)

/-! ## Claim-side definitions

Predicates, per-triple projections and concrete fixtures the claim theorems
quantify over. -/

/-- The values `vrl_value_to_json` documents as not representable in JSON:
a Float whose f64 is non-finite (rejected by `serde_json::Number::from_f64`)
and the variants outside the seven JSON-representable cases (Timestamp,
Regex). -/
def isNonRepresentable : VValue → Bool
  | .vfloat f => !f.isFinite
  | .vtimestamp => true
  | .vregex => true
  | _ => false

/-- The string `sub` occurs contiguously inside `s`. -/
def strContains (s sub : String) : Prop :=
  ∃ pre post, s = pre ++ sub ++ post

/-- A one-row batch whose nullable `name` column holds a null and whose
`value` column holds a string, exercising the writer's null handling. -/
def nullCellBatch : RecordBatch :=
  ⟨[⟨"name", .utf8, true⟩, ⟨"value", .utf8, true⟩],
   [[none], [some (.cstr "x")]]⟩

/-- An empty two-column batch. -/
def emptyTwoColBatch : RecordBatch :=
  ⟨[⟨"name", .utf8, false⟩, ⟨"value", .int64, false⟩], [[], []]⟩

/-- The gauge rows contributed by one (resource, scope, metric) triple. -/
def gaugeRowsOf : MetricTriple → List MetricRow
  | (res, sc, m) =>
      match m.data with
      | .gauge ps => (processNumberPoints res sc m none none ps).1
      | _ => []

/-- The sum rows contributed by one triple. -/
def sumRowsOf : MetricTriple → List MetricRow
  | (res, sc, m) =>
      match m.data with
      | .sum agg mono ps =>
          (processNumberPoints res sc m (some agg) (some mono) ps).1
      | _ => []

/-- The histogram data points of one triple (all skipped). -/
def histPointCountOf : MetricTriple → Nat
  | (_, _, m) =>
      match m.data with
      | .histogram ps => ps.length
      | _ => 0

/-- The exponential-histogram data points of one triple (all skipped). -/
def expPointCountOf : MetricTriple → Nat
  | (_, _, m) =>
      match m.data with
      | .exp_histogram ps => ps.length
      | _ => 0

/-- The summary data points of one triple. -/
def summaryCountOf : MetricTriple → Nat
  | (_, _, m) =>
      match m.data with
      | .summary ps => ps.length
      | _ => 0

/-- Whether a number point carries a present but non-finite value. -/
def hasNonFiniteValue (p : NumberPoint) : Bool :=
  match p.value with
  | some v => !v.isFinite
  | none => false

/-- Whether a number point carries no value at all. -/
def hasMissingValue (p : NumberPoint) : Bool :=
  p.value.isNone

/-- The gauge/sum points of one triple dropped for a non-finite value. -/
def nonFiniteCountOf : MetricTriple → Nat
  | (_, _, m) =>
      match m.data with
      | .gauge ps => ps.countP hasNonFiniteValue
      | .sum _ _ ps => ps.countP hasNonFiniteValue
      | _ => 0

/-- The gauge/sum points of one triple dropped for a missing value. -/
def missingCountOf : MetricTriple → Nat
  | (_, _, m) =>
      match m.data with
      | .gauge ps => ps.countP hasMissingValue
      | .sum _ _ ps => ps.countP hasMissingValue
      | _ => 0

/-- The total number of data points of one triple, of any kind. -/
def pointCountOf : MetricTriple → Nat
  | (_, _, m) =>
      match m.data with
      | .gauge ps => ps.length
      | .sum _ _ ps => ps.length
      | .histogram ps => ps.length
      | .exp_histogram ps => ps.length
      | .summary ps => ps.length

/-- The rows of an optional batch. -/
def rowsOf {α : Type} (o : Option (List α)) : List α :=
  o.getD []

/-- A one-triple payload holding a single histogram data point. -/
def histogramPointPayload : List ResourceMetrics :=
  [⟨⟨[]⟩, [⟨⟨"lib", "1", []⟩,
    [⟨"lat", "", "ms", .histogram
      [⟨0, 0, [], 0, 3, none, none, none, [1, 2], [.finite 10]⟩]⟩]⟩]⟩]

/-- A one-triple payload whose single gauge point has no value at all. -/
def absentPointPayload : List ResourceMetrics :=
  [⟨⟨[]⟩, [⟨⟨"lib", "1", []⟩,
    [⟨"m", "", "", .gauge [⟨0, 0, [], 0, [], none⟩]⟩]⟩]⟩]

/-- A one-triple payload with a single finite-valued gauge point. -/
def finiteGaugePayload : List ResourceMetrics :=
  [⟨⟨[("service.name", "svc")]⟩, [⟨⟨"lib", "1", []⟩,
    [⟨"temp", "", "C", .gauge [⟨5, 1, [], 0, [], some (.finite 3)⟩]⟩]⟩]⟩]

/-- The single row `finiteGaugePayload` produces. -/
def finiteGaugeRow : MetricRow :=
  numberRow ⟨[("service.name", "svc")]⟩ ⟨"lib", "1", []⟩
    ⟨"temp", "", "C", .gauge [⟨5, 1, [], 0, [], some (.finite 3)⟩]⟩
    none none ⟨5, 1, [], 0, [], some (.finite 3)⟩ (.finite 3)

/-- The gauge data points of one triple. -/
def gaugePointCountOf : MetricTriple → Nat
  | (_, _, m) =>
      match m.data with
      | .gauge ps => ps.length
      | _ => 0

/-- The sum data points of one triple. -/
def sumPointCountOf : MetricTriple → Nat
  | (_, _, m) =>
      match m.data with
      | .sum _ _ ps => ps.length
      | _ => 0

/-! ## Claims about `vrl_value_to_json` (C9, C10) -/

/-- The helper `convArr` distributes over list append. -/
theorem convArr_append (xs ys : List VValue) :
    convArr (xs ++ ys) = convArr xs ++ convArr ys := by
  induction xs with
  | nil => simp [convArr]
  | cons x xs ih =>
      simp only [List.cons_append, convArr]
      cases vrl_value_to_json x <;> simp [ih]

/-- The helper `convObj` distributes over list append. -/
theorem convObj_append (xs ys : List (String × VValue)) :
    convObj (xs ++ ys) = convObj xs ++ convObj ys := by
  induction xs with
  | nil => simp [convObj]
  | cons kv xs ih =>
      obtain ⟨k, v⟩ := kv
      cases v with
      | vnull => simpa [convObj] using ih
      | vbytes s => simp [convObj, vrl_value_to_json, ih]
      | vint i => simp [convObj, vrl_value_to_json, ih]
      | vbool b => simp [convObj, vrl_value_to_json, ih]
      | varr zs => simp [convObj, vrl_value_to_json, ih]
      | vobj kvs => simp [convObj, vrl_value_to_json, ih]
      | vtimestamp => simp [convObj, vrl_value_to_json, ih]
      | vregex => simp [convObj, vrl_value_to_json, ih]
      | vfloat f =>
          cases f <;> simp [convObj, vrl_value_to_json, FloatVal.isFinite, ih]

/-- C9: `vrl_value_to_json` returns `none` exactly when the value itself is
a non-finite Float or a variant outside the seven JSON-representable cases;
every Array and Object input therefore converts to `some`, and appending to
a container an element or entry whose own conversion fails leaves the
container's conversion unchanged — a nested failure never propagates. -/
theorem vrl_value_to_json_failure_locality :
    (∀ v, vrl_value_to_json v = none ↔ isNonRepresentable v = true) ∧
    (∀ (xs : List VValue) (bad : VValue), vrl_value_to_json bad = none →
      vrl_value_to_json (.varr (xs ++ [bad])) =
        vrl_value_to_json (.varr xs)) ∧
    (∀ (kvs : List (String × VValue)) (k : String) (bad : VValue),
      vrl_value_to_json bad = none →
      vrl_value_to_json (.vobj (kvs ++ [(k, bad)])) =
        vrl_value_to_json (.vobj kvs)) := by
  refine ⟨?_, ?_, ?_⟩
  · intro v
    cases v with
    | vfloat f => cases f <;>
        simp [vrl_value_to_json, isNonRepresentable, FloatVal.isFinite]
    | _ => simp [vrl_value_to_json, isNonRepresentable]
  · intro xs bad hbad
    simp only [vrl_value_to_json, convArr_append]
    simp [convArr, hbad]
  · intro kvs k bad hbad
    have hnn : bad ≠ .vnull := by
      intro h
      rw [h] at hbad
      simp [vrl_value_to_json] at hbad
    simp only [vrl_value_to_json, convObj_append]
    have : convObj [(k, bad)] = [] := by
      cases bad with
      | vnull => exact absurd rfl hnn
      | vfloat f =>
          cases f with
          | finite q => simp [vrl_value_to_json, FloatVal.isFinite] at hbad
          | _ => simp [convObj, vrl_value_to_json]
      | vtimestamp => simp [convObj, vrl_value_to_json]
      | vregex => simp [convObj, vrl_value_to_json]
      | _ => simp [vrl_value_to_json] at hbad
    simp [this]

/-- C9 witness: a NaN nested in an array or an object entry is silently
omitted and the container still converts. -/
theorem vrl_value_to_json_failure_locality_witness :
    vrl_value_to_json (.vfloat .nan) = none ∧
    vrl_value_to_json (.varr [.vint 7, .vfloat .nan]) =
      vrl_value_to_json (.varr [.vint 7]) ∧
    vrl_value_to_json (.vobj [("a", .vbytes "x"), ("b", .vfloat .posInf)]) =
      vrl_value_to_json (.vobj [("a", .vbytes "x")]) :=
  ⟨(vrl_value_to_json_failure_locality.1 (.vfloat .nan)).mpr rfl,
   vrl_value_to_json_failure_locality.2.1 [.vint 7] (.vfloat .nan)
     ((vrl_value_to_json_failure_locality.1 (.vfloat .nan)).mpr rfl),
   vrl_value_to_json_failure_locality.2.2 [("a", .vbytes "x")] "b"
     (.vfloat .posInf)
     ((vrl_value_to_json_failure_locality.1 (.vfloat .posInf)).mpr rfl)⟩

/-- Keys produced by `convObj` come from the input keys. -/
theorem convObj_keys_subset (kvs : List (String × VValue)) (k : String) :
    k ∉ kvs.map Prod.fst → (convObj kvs).lookup k = none := by
  induction kvs with
  | nil => intro _; simp [convObj]
  | cons kv rest ih =>
      obtain ⟨k1, v1⟩ := kv
      intro hk
      simp only [List.map_cons, List.mem_cons] at hk
      push_neg at hk
      obtain ⟨hne, hrest⟩ := hk
      have hk1 : (k == k1) = false := by
        simp [hne]
      cases v1 with
      | vnull => exact ih hrest
      | _ =>
          simp only [convObj]
          cases vrl_value_to_json _ with
          | none => exact ih hrest
          | some j => simp [List.lookup, hk1, ih hrest]

/-- C10: for an object with distinct keys, every entry whose value is Null
is omitted from the resulting JSON object — the key does not appear at all —
while a top-level Null converts to `some` JSON null. -/
theorem vrl_value_to_json_object_null_dropped :
    (∀ (kvs : List (String × VValue)) (k : String),
      kvs.Pairwise (fun a b => a.1 ≠ b.1) →
      (k, VValue.vnull) ∈ kvs →
      ∀ obj, vrl_value_to_json (.vobj kvs) = some (.jobj obj) →
        obj.lookup k = none) ∧
    vrl_value_to_json .vnull = some .jnull := by
  refine ⟨?_, rfl⟩
  intro kvs k hdist hmem obj hconv
  have hobj : obj = convObj kvs := by
    simp [vrl_value_to_json] at hconv
    exact hconv.symm
  subst hobj
  clear hconv
  induction kvs with
  | nil => simp at hmem
  | cons kv rest ih =>
      obtain ⟨k1, v1⟩ := kv
      rcases List.mem_cons.mp hmem with heq | hmem2
      · obtain ⟨hk, hv⟩ := Prod.mk.injEq _ _ _ _ ▸ heq
        subst hk hv
        simp only [convObj]
        apply convObj_keys_subset
        intro hmem3
        obtain ⟨⟨k2, v2⟩, hin, hfst⟩ := List.mem_map.mp hmem3
        exact (List.pairwise_cons.mp hdist).1 (k2, v2) hin hfst.symm
      · have hdist2 := (List.pairwise_cons.mp hdist).2
        have hne : k1 ≠ k := by
          have := (List.pairwise_cons.mp hdist).1 (k, .vnull) hmem2
          simpa using this
        have hk1 : (k == k1) = false := by
          simp [Ne.symm hne]
        cases v1 with
        | vnull => exact ih hdist2 hmem2
        | _ =>
            simp only [convObj]
            cases vrl_value_to_json _ with
            | none => exact ih hdist2 hmem2
            | some j => simp [List.lookup, hk1, ih hdist2 hmem2]

/-- C10 witness: a Null-valued entry disappears from a concrete object. -/
theorem vrl_value_to_json_object_null_dropped_witness :
    ([("kept", JValue.jstr "v")] : List (String × JValue)).lookup "gone" =
      none :=
  vrl_value_to_json_object_null_dropped.1
    [("gone", .vnull), ("kept", .vbytes "v")] "gone"
    (by simp) (by simp) [("kept", .jstr "v")] rfl

/-! ## Claims about the decode layer (C3, C4) -/

/-- C3: under `Auto`, `decode_logs` (and identically `decode_traces`,
`decode_metrics`) first runs the decoder selected by `looks_like_json`;
on failure it runs the other; and when both fail it returns
`DecodeError::Unsupported` whose message contains both the first decoder's
error message and the fallback decoder's error message. -/
theorem decode_logs_auto_fallback {α : Type}
    (protoDec jsonDec : List Nat → Except String α) (bytes : List Nat) :
    (looks_like_json bytes = true →
      (∀ v, jsonDec bytes = .ok v →
        decode_logs protoDec jsonDec bytes .Auto = .ok v) ∧
      (∀ je v, jsonDec bytes = .error je → protoDec bytes = .ok v →
        decode_logs protoDec jsonDec bytes .Auto = .ok v) ∧
      (∀ je pe, jsonDec bytes = .error je → protoDec bytes = .error pe →
        ∃ msg, decode_logs protoDec jsonDec bytes .Auto =
            .error (.Unsupported msg) ∧
          strContains msg je ∧ strContains msg pe)) ∧
    (looks_like_json bytes = false →
      (∀ v, protoDec bytes = .ok v →
        decode_logs protoDec jsonDec bytes .Auto = .ok v) ∧
      (∀ pe v, protoDec bytes = .error pe → jsonDec bytes = .ok v →
        decode_logs protoDec jsonDec bytes .Auto = .ok v) ∧
      (∀ pe je, protoDec bytes = .error pe → jsonDec bytes = .error je →
        ∃ msg, decode_logs protoDec jsonDec bytes .Auto =
            .error (.Unsupported msg) ∧
          strContains msg pe ∧ strContains msg je)) := by
  constructor
  · intro hjson
    refine ⟨?_, ?_, ?_⟩
    · intro v hv
      simp [decode_logs, decodeAuto, hjson, hv]
    · intro je v hje hv
      simp [decode_logs, decodeAuto, hjson, hje, hv]
    · intro je pe hje hpe
      refine ⟨"json decode failed: " ++ je ++
        "; protobuf fallback failed: " ++ pe, ?_, ?_, ?_⟩
      · simp [decode_logs, decodeAuto, hjson, hje, hpe]
      · exact ⟨"json decode failed: ", "; protobuf fallback failed: " ++ pe,
          by rw [String.append_assoc, String.append_assoc]⟩
      · exact ⟨"json decode failed: " ++ je ++ "; protobuf fallback failed: ",
          "", by rw [String.append_assoc, String.append_assoc]; simp⟩
  · intro hjson
    refine ⟨?_, ?_, ?_⟩
    · intro v hv
      simp [decode_logs, decodeAuto, hjson, hv]
    · intro pe v hpe hv
      simp [decode_logs, decodeAuto, hjson, hpe, hv]
    · intro pe je hpe hje
      refine ⟨"protobuf decode failed: " ++ pe ++
        "; json fallback failed: " ++ je, ?_, ?_, ?_⟩
      · simp [decode_logs, decodeAuto, hjson, hpe, hje]
      · exact ⟨"protobuf decode failed: ", "; json fallback failed: " ++ je,
          by rw [String.append_assoc, String.append_assoc]⟩
      · exact ⟨"protobuf decode failed: " ++ pe ++ "; json fallback failed: ",
          "", by rw [String.append_assoc, String.append_assoc]; simp⟩

/-- C3 witness: scenario S6 — the bytes `0xFF 0xFE 0xFD` do not look like
JSON, so protobuf is tried first; with both sub-decoders failing, the Auto
decode is `Unsupported` with a message containing both causes. -/
theorem decode_logs_auto_fallback_witness :
    looks_like_json [255, 254, 253] = false ∧
    (∃ msg,
      decode_logs (α := List VValue)
          (fun _ => .error "proto boom") (fun _ => .error "json boom")
          [255, 254, 253] .Auto = .error (.Unsupported msg) ∧
        strContains msg "proto boom" ∧ strContains msg "json boom") ∧
    looks_like_json [123] = true ∧
    decode_logs (α := List VValue)
        (fun _ => .error "proto boom") (fun _ => .ok [])
        [123] .Auto = .ok [] :=
  ⟨rfl,
   (decode_logs_auto_fallback (α := List VValue)
      (fun _ => .error "proto boom") (fun _ => .error "json boom")
      [255, 254, 253]).2 rfl |>.2.2 "proto boom" "json boom" rfl rfl,
   rfl,
   (decode_logs_auto_fallback (α := List VValue)
      (fun _ => .error "proto boom") (fun _ => .ok [])
      [123]).1 rfl |>.1 [] rfl⟩

/-- C4 counterexample: `from_content_type` maps `application/otlp+json` —
a string different from `application/json` — to `Json`, not `Auto`; it also
normalizes case, mapping `Application/JSON` to `Json`. -/
theorem from_content_type_counterexample :
    from_content_type (some "application/otlp+json") = .Json ∧
    from_content_type (some "Application/JSON") = .Json ∧
    "application/otlp+json" ≠ "application/json" := by
  refine ⟨rfl, rfl, by decide⟩

/-- C4 (amended): after trimming and ASCII-lowercasing the header value,
`from_content_type` returns `Json` exactly for `application/json` and
`application/otlp+json`, `Protobuf` exactly for `application/x-protobuf`,
`application/protobuf` and `application/otlp`, and `Auto` for every other
value, including an absent header. -/
theorem from_content_type_cases :
    from_content_type none = .Auto ∧
    ∀ s, from_content_type (some s) =
      (if normalizeContentType s = "application/json" ∨
          normalizeContentType s = "application/otlp+json" then .Json
       else if normalizeContentType s = "application/x-protobuf" ∨
          normalizeContentType s = "application/protobuf" ∨
          normalizeContentType s = "application/otlp" then .Protobuf
       else .Auto) := by
  refine ⟨rfl, ?_⟩
  intro s
  simp only [from_content_type, Option.map_some']
  split
  all_goals try (rename_i heq; simp only [Option.some.injEq] at heq; simp [heq])
  rename_i h1 h2 h3 h4 h5
  simp only [Option.some.injEq] at h1 h2 h3 h4 h5
  rw [if_neg, if_neg]
  · rintro (h | h | h) <;> simp_all
  · rintro (h | h) <;> simp_all

/-! ## Claims about the NDJSON writer (C5) -/

/-- C5 counterexample: the writer omits the key of a null cell entirely —
the row object of `nullCellBatch` has no `name` key and the serialized line
contains no JSON `null` — refuting "a null cell of a nullable field is
serialized as JSON null in the row object". -/
theorem to_json_null_cell_counterexample :
    (nullCellBatch.fields.map Field.name = ["name", "value"] ∧
      nullCellBatch.fields.map Field.nullable = [true, true]) ∧
    nullCellBatch.columns.getD 0 [] = [none] ∧
    toJsonRows nullCellBatch = [[("value", .jstr "x")]] ∧
    ((toJsonRows nullCellBatch).getD 0 []).lookup "name" = none ∧
    to_json nullCellBatch = "\x7b\"value\":\"x\"\x7d\n" := by
  refine ⟨⟨rfl, rfl⟩, rfl, rfl, rfl, rfl⟩

/-- The keys of a row object are exactly the names of the schema fields
whose cell at that row is valid, in schema order. -/
theorem rowObj_keys (fs : List Field) (cs : List Column) (i : Nat) :
    (rowObj fs cs i).map Prod.fst =
      ((fs.zip cs).filter fun fc => ((fc.2).getD i none).isSome).map
        fun fc => fc.1.name := by
  induction fs generalizing cs with
  | nil => cases cs <;> simp [rowObj]
  | cons f fs ih =>
      cases cs with
      | nil => simp [rowObj]
      | cons c cs =>
          simp only [rowObj, List.zip_cons_cons]
          cases h : c.getD i none <;>
            simp only [List.getD_eq_getElem?_getD] at h <;>
            simp [List.filter_cons, h, ih]

/-- A non-empty list of newline-terminated lines concatenates to a
newline-terminated string. -/
theorem concatLines_newline (l : List String) (hne : l ≠ [])
    (hl : ∀ s ∈ l, ∃ t, s = t ++ "\n") :
    ∃ t, concatLines l = t ++ "\n" := by
  induction l with
  | nil => exact absurd rfl hne
  | cons s rest ih =>
      cases rest with
      | nil =>
          obtain ⟨t, ht⟩ := hl s (List.mem_cons_self ..)
          exact ⟨t, by simpa [concatLines] using ht⟩
      | cons s2 rest2 =>
          obtain ⟨t, ht⟩ := ih (by simp)
            (fun x hx => hl x (List.mem_cons_of_mem _ hx))
          refine ⟨s ++ t, ?_⟩
          rw [concatLines, ht]
          exact (String.append_assoc s t "\n").symm

/-- C5 (amended): `to_json` emits one JSON object per row in insertion
order with the present fields in schema order and each row terminated by a
newline; the output is empty exactly for a zero-row batch; and the keys of
row `i` are the names of the fields whose cell at `i` is valid — a null
cell of a nullable field is omitted from the row object rather than
serialized as JSON null. -/
theorem to_json_rows_newline_empty (b : RecordBatch) :
    (toJsonRows b).length = b.numRows ∧
    (to_json b = "" ↔ b.numRows = 0) ∧
    (b.numRows ≠ 0 → ∃ t, to_json b = t ++ "\n") ∧
    (∀ i, i < b.numRows →
      ((toJsonRows b).getD i []).map Prod.fst =
        ((b.fields.zip b.columns).filter
          fun fc => ((fc.2).getD i none).isSome).map fun fc => fc.1.name) := by
  have hrow : ∀ i, i < b.numRows →
      (toJsonRows b).getD i [] = rowObj b.fields b.columns i := by
    intro i hi
    simp [toJsonRows, List.getD_eq_getElem?_getD, List.getElem?_map,
      List.getElem?_range, hi]
  have hnl : b.numRows ≠ 0 → ∃ t, to_json b = t ++ "\n" := by
    intro hn
    apply concatLines_newline
    · simp [toJsonRows]
      omega
    · intro s hs
      obtain ⟨r, _, hr⟩ := List.mem_map.mp hs
      exact ⟨serializeRowText r, hr.symm⟩
  refine ⟨by simp [toJsonRows], ⟨?_, ?_⟩, hnl, ?_⟩
  · intro hempty
    by_contra hn
    obtain ⟨t, ht⟩ := hnl hn
    rw [ht] at hempty
    have : (t ++ "\n").data = [] := by rw [hempty]
    simp [String.data_append] at this
  · intro hn
    simp [to_json, toJsonRows, hn, concatLines]
  · intro i hi
    rw [hrow i hi]
    exact rowObj_keys b.fields b.columns i

/-- C5 witness: the amended theorem applied to the concrete one-row batch
with a null cell. -/
theorem to_json_rows_newline_empty_witness :
    (toJsonRows nullCellBatch).length = nullCellBatch.numRows ∧
    (∃ t, to_json nullCellBatch = t ++ "\n") ∧
    ((toJsonRows nullCellBatch).getD 0 []).map Prod.fst = ["value"] := by
  obtain ⟨h1, _, h3, h4⟩ := to_json_rows_newline_empty nullCellBatch
  refine ⟨h1, h3 (by decide), ?_⟩
  have := h4 0 (by decide)
  simpa using this

/-! ## Claims about the IPC and Parquet writers (C6, C7) -/

/-- C6: the IPC stream written by `to_ipc` is a schema message, one
record-batch message and the end-of-stream marker, and reading it back
recovers exactly the original batch — columns included, so null positions
(the validity bitmaps) are preserved. -/
theorem to_ipc_roundtrip (b : RecordBatch) :
    to_ipc b = [.schemaMsg b.fields, .batchMsg b.columns, .eos] ∧
    readIpcStream (to_ipc b) = some [b] := by
  cases b
  exact ⟨rfl, rfl⟩

/-- C7 counterexample: on an empty batch the `ArrowWriter` flushes no row
group at all, refuting "contains one row group holding all rows of the
batch" (the repo's own `test_to_parquet_empty_batch` records that an empty
batch may produce no row groups). -/
theorem to_parquet_empty_no_row_group :
    emptyTwoColBatch.numRows = 0 ∧
    (to_parquet emptyTwoColBatch).row_groups = [] ∧
    (to_parquet emptyTwoColBatch).row_groups.length ≠ 1 := by
  refine ⟨rfl, ?_, ?_⟩ <;>
    simp [to_parquet, emptyTwoColBatch, RecordBatch.numRows, chunkRowGroups]

/-- C7 (amended): `to_parquet` produces an uncompressed single in-memory
parquet file whose schema derives from the batch's Arrow schema and whose
bytes start and end with the `PAR1` magic; a non-empty batch of at most
`max_row_group_size` rows yields exactly one row group holding all its
rows, while an empty batch yields no row group. -/
theorem to_parquet_file_shape (b : RecordBatch) :
    (to_parquet b).compression = .uncompressed ∧
    (to_parquet b).schema = b.fields ∧
    (b.numRows = 0 → (to_parquet b).row_groups = []) ∧
    (b.numRows ≠ 0 → b.numRows ≤ DEFAULT_MAX_ROW_GROUP_SIZE →
      (to_parquet b).row_groups = [b.columns]) ∧
    (parquetBytes (to_parquet b)).take 4 = parquetMagic ∧
    ∃ mid, parquetBytes (to_parquet b) = parquetMagic ++ mid ++ parquetMagic := by
  refine ⟨rfl, rfl, ?_, ?_, ?_, ?_⟩
  · intro h
    simp [to_parquet, chunkRowGroups, h]
  · intro h1 h2
    rw [to_parquet]
    rw [chunkRowGroups]
    simp [h1, h2]
  · have : parquetBytes (to_parquet b) =
        parquetMagic ++ (parquetBody (to_parquet b) ++ parquetMagic) := by
      rw [parquetBytes, List.append_assoc]
    rw [this]
    rfl
  · exact ⟨parquetBody (to_parquet b), rfl⟩

/-- C7 witness: the amended theorem applied to a concrete one-row batch and
to a concrete empty batch. -/
theorem to_parquet_file_shape_witness :
    (to_parquet nullCellBatch).row_groups = [nullCellBatch.columns] ∧
    (to_parquet nullCellBatch).compression = .uncompressed ∧
    (to_parquet emptyTwoColBatch).row_groups = [] := by
  obtain ⟨h1, _, _, h4, _, _⟩ := to_parquet_file_shape nullCellBatch
  obtain ⟨_, _, e3, _, _, _⟩ := to_parquet_file_shape emptyTwoColBatch
  exact ⟨h4 (by decide) (by decide), h1, e3 (by decide)⟩

/-! ## Claims about the metrics dispatch (C1, C2, C8) -/

/-- The wrapper `batchOf` drops nothing: its rows are the input rows. -/
theorem rowsOf_batchOf {α : Type} (l : List α) : rowsOf (batchOf l) = l := by
  cases l <;> rfl

/-- The wrapper `batchOf` is `none` exactly on the empty row list. -/
theorem batchOf_eq_none {α : Type} (l : List α) :
    batchOf l = none ↔ l = [] := by
  cases l <;> simp [batchOf]

/-- The emitted rows, non-finite drops and missing drops of
`processNumberPoints` partition the input points. -/
theorem processNumberPoints_counts (res : ResourceInfo) (sc : ScopeInfo)
    (m : Metric) (agg : Option Int) (mono : Option Bool)
    (ps : List NumberPoint) :
    (processNumberPoints res sc m agg mono ps).2.1 =
        ps.countP hasNonFiniteValue ∧
      (processNumberPoints res sc m agg mono ps).2.2 =
        ps.countP hasMissingValue ∧
      (processNumberPoints res sc m agg mono ps).1.length +
          ps.countP hasNonFiniteValue + ps.countP hasMissingValue =
        ps.length := by
  induction ps with
  | nil => simp [processNumberPoints]
  | cons p ps ih =>
      obtain ⟨ih1, ih2, ih3⟩ := ih
      cases hv : p.value with
      | none =>
          simp only [processNumberPoints, hv, List.countP_cons,
            hasNonFiniteValue, hasMissingValue, Option.isNone]
          simp [hv, ih1, ih2]
          omega
      | some v =>
          cases hf : v.isFinite with
          | true =>
              simp only [processNumberPoints, hv, hf, List.countP_cons,
                hasNonFiniteValue, hasMissingValue, Option.isNone]
              simp [hv, hf, ih1, ih2]
              omega
          | false =>
              simp only [processNumberPoints, hv, hf, List.countP_cons,
                hasNonFiniteValue, hasMissingValue, Option.isNone]
              simp [hv, hf, ih1, ih2]
              omega

/-- Every row emitted by `processNumberPoints` has a finite value. -/
theorem processNumberPoints_finite (res : ResourceInfo) (sc : ScopeInfo)
    (m : Metric) (agg : Option Int) (mono : Option Bool)
    (ps : List NumberPoint) :
    ∀ r ∈ (processNumberPoints res sc m agg mono ps).1,
      r.value.isFinite = true := by
  induction ps with
  | nil => simp [processNumberPoints]
  | cons p ps ih =>
      intro r hr
      cases hv : p.value with
      | none =>
          simp only [processNumberPoints, hv] at hr
          exact ih r hr
      | some v =>
          cases hf : v.isFinite with
          | false =>
              simp [processNumberPoints, hv, hf] at hr
              exact ih r hr
          | true =>
              simp [processNumberPoints, hv, hf] at hr
              rcases hr with heq | hmem
              · subst heq
                simpa [numberRow] using hf
              · exact ih r hmem

/-- One fold step extends each accumulator component by the contribution of
the visited triple. -/
theorem stepMetric_spec (acc : MetricsAcc) (t : MetricTriple) :
    stepMetric acc t =
      { gaugeRows := acc.gaugeRows ++ gaugeRowsOf t,
        sumRows := acc.sumRows ++ sumRowsOf t,
        skipped :=
          { summary := acc.skipped.summary + summaryCountOf t,
            histogram := acc.skipped.histogram + histPointCountOf t,
            exp_histogram :=
              acc.skipped.exp_histogram + expPointCountOf t,
            non_finite := acc.skipped.non_finite + nonFiniteCountOf t,
            missing_value :=
              acc.skipped.missing_value + missingCountOf t } } := by
  obtain ⟨res, sc, m⟩ := t
  cases hd : m.data with
  | gauge ps =>
      obtain ⟨g1, g2, _⟩ := processNumberPoints_counts res sc m none none ps
      simp [stepMetric, hd, gaugeRowsOf, sumRowsOf, histPointCountOf,
        expPointCountOf, summaryCountOf, nonFiniteCountOf, missingCountOf,
        g1, g2]
  | sum agg mono ps =>
      obtain ⟨g1, g2, _⟩ := processNumberPoints_counts res sc m
        (some agg) (some mono) ps
      simp [stepMetric, hd, gaugeRowsOf, sumRowsOf, histPointCountOf,
        expPointCountOf, summaryCountOf, nonFiniteCountOf, missingCountOf,
        g1, g2]
  | histogram ps =>
      simp [stepMetric, hd, gaugeRowsOf, sumRowsOf, histPointCountOf,
        expPointCountOf, summaryCountOf, nonFiniteCountOf, missingCountOf]
  | exp_histogram ps =>
      simp [stepMetric, hd, gaugeRowsOf, sumRowsOf, histPointCountOf,
        expPointCountOf, summaryCountOf, nonFiniteCountOf, missingCountOf]
  | summary ps =>
      simp [stepMetric, hd, gaugeRowsOf, sumRowsOf, histPointCountOf,
        expPointCountOf, summaryCountOf, nonFiniteCountOf, missingCountOf]

/-- The fold over all visited triples appends each triple's contribution in
visit order. -/
theorem foldl_stepMetric_spec (ts : List MetricTriple) (acc : MetricsAcc) :
    ts.foldl stepMetric acc =
      { gaugeRows := acc.gaugeRows ++ ts.flatMap gaugeRowsOf,
        sumRows := acc.sumRows ++ ts.flatMap sumRowsOf,
        skipped :=
          { summary := acc.skipped.summary + (ts.map summaryCountOf).sum,
            histogram :=
              acc.skipped.histogram + (ts.map histPointCountOf).sum,
            exp_histogram :=
              acc.skipped.exp_histogram + (ts.map expPointCountOf).sum,
            non_finite :=
              acc.skipped.non_finite + (ts.map nonFiniteCountOf).sum,
            missing_value :=
              acc.skipped.missing_value + (ts.map missingCountOf).sum } } := by
  induction ts generalizing acc with
  | nil => simp
  | cons t ts ih =>
      rw [List.foldl_cons, ih (stepMetric acc t), stepMetric_spec]
      simp [List.append_assoc, Nat.add_assoc]

/-- Each triple's contributions partition its data points: every point
lands in exactly one destination (a gauge/sum batch or a skip counter). -/
theorem triple_conservation (t : MetricTriple) :
    (gaugeRowsOf t).length + (sumRowsOf t).length + summaryCountOf t +
        histPointCountOf t + expPointCountOf t + nonFiniteCountOf t +
        missingCountOf t =
      pointCountOf t := by
  obtain ⟨res, sc, m⟩ := t
  cases hd : m.data with
  | gauge ps =>
      obtain ⟨_, _, g3⟩ := processNumberPoints_counts res sc m none none ps
      simp [gaugeRowsOf, sumRowsOf, histPointCountOf, expPointCountOf,
        summaryCountOf, nonFiniteCountOf, missingCountOf, pointCountOf, hd]
      omega
  | sum agg mono ps =>
      obtain ⟨_, _, g3⟩ := processNumberPoints_counts res sc m
        (some agg) (some mono) ps
      simp [gaugeRowsOf, sumRowsOf, histPointCountOf, expPointCountOf,
        summaryCountOf, nonFiniteCountOf, missingCountOf, pointCountOf, hd]
      omega
  | histogram ps =>
      simp [gaugeRowsOf, sumRowsOf, histPointCountOf, expPointCountOf,
        summaryCountOf, nonFiniteCountOf, missingCountOf, pointCountOf, hd]
  | exp_histogram ps =>
      simp [gaugeRowsOf, sumRowsOf, histPointCountOf, expPointCountOf,
        summaryCountOf, nonFiniteCountOf, missingCountOf, pointCountOf, hd]
  | summary ps =>
      simp [gaugeRowsOf, sumRowsOf, histPointCountOf, expPointCountOf,
        summaryCountOf, nonFiniteCountOf, missingCountOf, pointCountOf, hd]

/-- Conservation over a whole triple list. -/
theorem triples_conservation (ts : List MetricTriple) :
    (ts.flatMap gaugeRowsOf).length + (ts.flatMap sumRowsOf).length +
        (ts.map summaryCountOf).sum + (ts.map histPointCountOf).sum +
        (ts.map expPointCountOf).sum + (ts.map nonFiniteCountOf).sum +
        (ts.map missingCountOf).sum =
      (ts.map pointCountOf).sum := by
  induction ts with
  | nil => simp
  | cons t ts ih =>
      have h := triple_conservation t
      simp only [List.flatMap_cons, List.map_cons, List.length_append,
        List.sum_cons]
      omega

/-- C1 counterexample: a payload with a single histogram data point — the
claim says it is emitted as one row of the histogram batch, but the decoder
skips it: the histogram batch is `None` and the point is counted in the
skipped histogram counter (per the `decode_metrics` doc contract in
`src/decode/mod.rs`: Histogram, ExponentialHistogram and Summary are not
supported). -/
theorem decode_metrics_histogram_skipped_counterexample :
    (decode_metrics_model histogramPointPayload).histogram = none ∧
    (decode_metrics_model histogramPointPayload).skipped.histogram = 1 ∧
    (decode_metrics_model histogramPointPayload).gauge = none ∧
    (decode_metrics_model histogramPointPayload).sum = none := by
  refine ⟨rfl, rfl, rfl, rfl⟩

/-- C1 (amended): each data point of a decoded metrics payload lands in the
destination determined by its metric-type oneof — gauge and sum points
become one row each of their own batch, in visit order, while Summary,
Histogram and ExponentialHistogram data points are skipped: counted in
`skipped.summary` and the histogram/exp-histogram skip counters, producing
no batch (the histogram and exp_histogram batches are always `None`); a
gauge/sum batch is present exactly when it received a row, and every point
lands in exactly one destination. -/
theorem decode_metrics_dispatch (payload : List ResourceMetrics) :
    rowsOf (decode_metrics_model payload).gauge =
        (metricTriples payload).flatMap gaugeRowsOf ∧
    rowsOf (decode_metrics_model payload).sum =
        (metricTriples payload).flatMap sumRowsOf ∧
    (decode_metrics_model payload).histogram = none ∧
    (decode_metrics_model payload).exp_histogram = none ∧
    (decode_metrics_model payload).skipped.summary =
        ((metricTriples payload).map summaryCountOf).sum ∧
    (decode_metrics_model payload).skipped.histogram =
        ((metricTriples payload).map histPointCountOf).sum ∧
    (decode_metrics_model payload).skipped.exp_histogram =
        ((metricTriples payload).map expPointCountOf).sum ∧
    ((decode_metrics_model payload).gauge = none ↔
        (metricTriples payload).flatMap gaugeRowsOf = []) ∧
    ((decode_metrics_model payload).sum = none ↔
        (metricTriples payload).flatMap sumRowsOf = []) ∧
    (rowsOf (decode_metrics_model payload).gauge).length +
        (rowsOf (decode_metrics_model payload).sum).length +
        (decode_metrics_model payload).skipped.summary +
        (decode_metrics_model payload).skipped.histogram +
        (decode_metrics_model payload).skipped.exp_histogram +
        (decode_metrics_model payload).skipped.non_finite +
        (decode_metrics_model payload).skipped.missing_value =
      ((metricTriples payload).map pointCountOf).sum := by
  have hfold := foldl_stepMetric_spec (metricTriples payload) MetricsAcc.init
  simp only [decode_metrics_model]
  rw [hfold]
  simp only [MetricsAcc.init, List.nil_append, Nat.zero_add, rowsOf_batchOf,
    batchOf_eq_none]
  refine ⟨trivial, trivial, trivial, trivial, trivial, trivial, trivial,
    trivial, trivial, ?_⟩
  exact triples_conservation (metricTriples payload)

/-- Every gauge row of a triple carries a finite value. -/
theorem gaugeRowsOf_finite (t : MetricTriple) :
    ∀ r ∈ gaugeRowsOf t, r.value.isFinite = true := by
  obtain ⟨res, sc, m⟩ := t
  cases hd : m.data with
  | gauge ps =>
      simpa [gaugeRowsOf, hd] using
        processNumberPoints_finite res sc m none none ps
  | _ => simp [gaugeRowsOf, hd]

/-- Every sum row of a triple carries a finite value. -/
theorem sumRowsOf_finite (t : MetricTriple) :
    ∀ r ∈ sumRowsOf t, r.value.isFinite = true := by
  obtain ⟨res, sc, m⟩ := t
  cases hd : m.data with
  | sum agg mono ps =>
      simpa [sumRowsOf, hd] using
        processNumberPoints_finite res sc m (some agg) (some mono) ps
  | _ => simp [sumRowsOf, hd]

/-- C2 counterexample: a gauge point with an absent value is dropped (the
gauge batch is `None`), but it increments the missing-value counter and NOT
`skipped.non_finite` — so the number of dropped points (1) differs from
`skipped.non_finite` (0), refuting the claim's final equality for absent
values. -/
theorem decode_metrics_absent_value_counterexample :
    (decode_metrics_model absentPointPayload).gauge = none ∧
    (decode_metrics_model absentPointPayload).skipped.non_finite = 0 ∧
    (decode_metrics_model absentPointPayload).skipped.missing_value = 1 := by
  refine ⟨rfl, rfl, rfl⟩

/-- C2 (amended): every gauge/sum data point whose value is non-finite or
absent is excluded from all emitted batches; no gauge or sum row carries a
non-finite value; and `skipped.non_finite` counts exactly the points
dropped for a present non-finite value, while points with an absent value
are counted in the separate missing-value counter. -/
theorem decode_metrics_finite_only (payload : List ResourceMetrics) :
    (∀ r ∈ rowsOf (decode_metrics_model payload).gauge,
      r.value.isFinite = true) ∧
    (∀ r ∈ rowsOf (decode_metrics_model payload).sum,
      r.value.isFinite = true) ∧
    (decode_metrics_model payload).skipped.non_finite =
        ((metricTriples payload).map nonFiniteCountOf).sum ∧
    (decode_metrics_model payload).skipped.missing_value =
        ((metricTriples payload).map missingCountOf).sum := by
  have hfold := foldl_stepMetric_spec (metricTriples payload) MetricsAcc.init
  simp only [decode_metrics_model]
  rw [hfold]
  simp only [MetricsAcc.init, List.nil_append, Nat.zero_add, rowsOf_batchOf]
  refine ⟨?_, ?_, trivial, trivial⟩
  · intro r hr
    obtain ⟨t, _, hrt⟩ := List.mem_flatMap.mp hr
    exact gaugeRowsOf_finite t r hrt
  · intro r hr
    obtain ⟨t, _, hrt⟩ := List.mem_flatMap.mp hr
    exact sumRowsOf_finite t r hrt

/-- C2 witness: the amended theorem applied to the concrete payload — its
emitted gauge row has a finite value and nothing was dropped. -/
theorem decode_metrics_finite_only_witness :
    finiteGaugeRow.value.isFinite = true ∧
    (decode_metrics_model finiteGaugePayload).skipped.non_finite = 0 :=
  ⟨(decode_metrics_finite_only finiteGaugePayload).1 finiteGaugeRow
    (by decide),
   (decode_metrics_finite_only finiteGaugePayload).2.2.1.trans (by decide)⟩

/-- A triple with no gauge points contributes no gauge rows. -/
theorem gaugeRowsOf_eq_nil (t : MetricTriple)
    (h : gaugePointCountOf t = 0) : gaugeRowsOf t = [] := by
  obtain ⟨res, sc, m⟩ := t
  cases hd : m.data with
  | gauge ps =>
      simp only [gaugePointCountOf, hd, List.length_eq_zero] at h
      subst h
      simp [gaugeRowsOf, hd, processNumberPoints]
  | _ => simp [gaugeRowsOf, hd]

/-- A triple with no sum points contributes no sum rows. -/
theorem sumRowsOf_eq_nil (t : MetricTriple)
    (h : sumPointCountOf t = 0) : sumRowsOf t = [] := by
  obtain ⟨res, sc, m⟩ := t
  cases hd : m.data with
  | sum agg mono ps =>
      simp only [sumPointCountOf, hd, List.length_eq_zero] at h
      subst h
      simp [sumRowsOf, hd, processNumberPoints]
  | _ => simp [sumRowsOf, hd]

/-- C8: for a payload with no gauge (respectively no sum) data points, the
WASM facade returns the IPC stream of the zero-row batch carrying the full
gauge (respectively sum) schema — a readable stream with the right schema,
never an empty output. -/
theorem wasm_metrics_empty_schema (payload : List ResourceMetrics) :
    (((metricTriples payload).map gaugePointCountOf).sum = 0 →
      transform_metrics_gauge_impl payload =
          to_ipc (RecordBatch.new_empty gauge_schema) ∧
        readIpcStream (transform_metrics_gauge_impl payload) =
          some [RecordBatch.new_empty gauge_schema] ∧
        (RecordBatch.new_empty gauge_schema).numRows = 0 ∧
        (RecordBatch.new_empty gauge_schema).fields = gauge_schema ∧
        transform_metrics_gauge_impl payload ≠ []) ∧
    (((metricTriples payload).map sumPointCountOf).sum = 0 →
      transform_metrics_sum_impl payload =
          to_ipc (RecordBatch.new_empty sum_schema) ∧
        readIpcStream (transform_metrics_sum_impl payload) =
          some [RecordBatch.new_empty sum_schema] ∧
        (RecordBatch.new_empty sum_schema).numRows = 0 ∧
        (RecordBatch.new_empty sum_schema).fields = gauge_schema ++
          [⟨"aggregation_temporality", .int64, false⟩,
           ⟨"is_monotonic", .boolean, false⟩] ∧
        transform_metrics_sum_impl payload ≠ []) := by
  have hfold := foldl_stepMetric_spec (metricTriples payload) MetricsAcc.init
  constructor
  · intro h
    have hnil : (metricTriples payload).flatMap gaugeRowsOf = [] := by
      rw [List.flatMap_eq_nil_iff]
      intro t ht
      exact gaugeRowsOf_eq_nil t
        (List.sum_eq_zero_iff.mp h _ (List.mem_map_of_mem _ ht))
    have hnone : (decode_metrics_model payload).gauge = none := by
      simp only [decode_metrics_model]
      rw [hfold]
      simp only [MetricsAcc.init, List.nil_append, batchOf_eq_none]
      exact hnil
    have himpl : transform_metrics_gauge_impl payload =
        to_ipc (RecordBatch.new_empty gauge_schema) := by
      simp [transform_metrics_gauge_impl, transform_metrics, hnone]
    refine ⟨himpl, ?_, rfl, rfl, ?_⟩
    · rw [himpl]
      rfl
    · rw [himpl]
      simp [to_ipc]
  · intro h
    have hnil : (metricTriples payload).flatMap sumRowsOf = [] := by
      rw [List.flatMap_eq_nil_iff]
      intro t ht
      exact sumRowsOf_eq_nil t
        (List.sum_eq_zero_iff.mp h _ (List.mem_map_of_mem _ ht))
    have hnone : (decode_metrics_model payload).sum = none := by
      simp only [decode_metrics_model]
      rw [hfold]
      simp only [MetricsAcc.init, List.nil_append, batchOf_eq_none]
      exact hnil
    have himpl : transform_metrics_sum_impl payload =
        to_ipc (RecordBatch.new_empty sum_schema) := by
      simp [transform_metrics_sum_impl, transform_metrics, hnone]
    refine ⟨himpl, ?_, rfl, rfl, ?_⟩
    · rw [himpl]
      rfl
    · rw [himpl]
      simp [to_ipc]

/-- C8 witness: a payload holding only a summary metric has neither gauge
nor sum points, and both facades return the empty-batch IPC stream. -/
theorem wasm_metrics_empty_schema_witness :
    transform_metrics_gauge_impl
        [⟨⟨[]⟩, [⟨⟨"lib", "1", []⟩,
          [⟨"q", "", "", .summary [⟨0, 0, [], 1⟩]⟩]⟩]⟩] =
      to_ipc (RecordBatch.new_empty gauge_schema) ∧
    transform_metrics_sum_impl
        [⟨⟨[]⟩, [⟨⟨"lib", "1", []⟩,
          [⟨"q", "", "", .summary [⟨0, 0, [], 1⟩]⟩]⟩]⟩] ≠ [] :=
  ⟨((wasm_metrics_empty_schema _).1 (by decide)).1,
   ((wasm_metrics_empty_schema _).2 (by decide)).2.2.2.2⟩

end Otlp2Records
